import Mathlib

/-!
Shallow embedding of the core of the `eo-learn` workshop repository: the
`EOPatch` feature container with its shape/dtype validation, the task
library used by the notebook (`AddFeature`, `S2L1CWCSInput`,
`VectorToRaster`, `SaveToDisk`, the user-defined `MedianPixel`) and the
linear workflow engine.  The workshop notebook (`answers.ipynb`) only
calls into the library, so the container and library-task semantics are
modelled from the specification where the doc comments say so; the
`MedianPixel` task is embedded from the notebook cell that defines it.
Array values are modelled as rationals, time instants as naturals.
-/

/-- Dtype of an n-dimensional array payload, with the three dtype
families the feature-type contracts distinguish. -/
inductive Dtype
  | uint8
  | uint16
  | int64
  | float32
  | float64
  | boolean
deriving DecidableEq

/-- Integer dtype family. -/
def Dtype.isInteger : Dtype → Bool
  | .uint8 | .uint16 | .int64 => true
  | _ => false

/-- Floating dtype family. -/
def Dtype.isFloat : Dtype → Bool
  | .float32 | .float64 => true
  | _ => false

/-- Numeric dtype family (integer or floating, not boolean). -/
def Dtype.isNumeric (d : Dtype) : Bool := d.isInteger || d.isFloat

/-- The ten feature types of a Patch. -/
inductive FeatureType
  | DATA
  | MASK
  | SCALAR
  | LABEL
  | DATA_TIMELESS
  | MASK_TIMELESS
  | SCALAR_TIMELESS
  | LABEL_TIMELESS
  | VECTOR
  | VECTOR_TIMELESS
deriving DecidableEq

/-- An n-dimensional array: shape, dtype and row-major flattened
contents.  Cell values are modelled as rationals. -/
structure NDArray where
  shape : List Nat
  dtype : Dtype
  data : List ℚ
deriving DecidableEq

/-- Coordinate reference systems appearing in the notebook. -/
inductive CRS
  | WGS84
  | UTM35N
  | POP_WEB
deriving DecidableEq

/-- Modelled from the spec (§4.2.4, rasterization is library code not in
src/): a vector geometry is abstracted by the set of raster-grid pixels
it covers once reprojected into each CRS. -/
structure Geometry where
  covered : List (CRS × Nat × Nat)
deriving DecidableEq

/-- Pixels covered by a geometry after reprojection to the given CRS. -/
def Geometry.pixelsIn (g : Geometry) (c : CRS) : List (Nat × Nat) :=
  (g.covered.filter (fun e => e.1 == c)).map (fun e => e.2)

/-- A row of a geo table: an optional TIMESTAMP column and a geometry. -/
structure GeoRow where
  timestampCol : Option Nat
  geom : Geometry
deriving DecidableEq

/-- A bounding box together with its CRS. -/
structure BBox where
  minx : ℚ
  miny : ℚ
  maxx : ℚ
  maxy : ℚ
  crs : CRS
deriving DecidableEq

/-- A feature payload: a raster/series array or a geo table. -/
inductive Payload
  | array (a : NDArray)
  | table (rows : List GeoRow)
deriving DecidableEq

/-- Free-form key/value metadata mapping. -/
abbrev MetaInfo := List (String × String)

/-- Modelled from the spec (§3/§4.1, the `EOPatch` container is library
code not in src/): a typed bag of named features keyed by
`(FeatureType, name)` plus the three metadata slots. -/
structure EOPatch where
  features : List (FeatureType × String × Payload)
  bbox : Option BBox
  timestamp : Option (List Nat)
  meta_info : Option MetaInfo
deriving DecidableEq

/-- The empty Patch: every mapping empty, metadata unset. -/
def EOPatch.empty : EOPatch := ⟨[], none, none, none⟩

/-- Error kinds of the spec (§7), plus the empty-date-range failure mode
of remote ingestion (§4.2.3). -/
inductive EOError
  | ShapeMismatch
  | DtypeMismatch
  | MissingFeature
  | MissingMetadata
  | RemoteUnavailable
  | RemoteTransient
  | OverwriteRefused
  | EmptyDateRange
deriving DecidableEq

/-- Shape arity contract of each feature type (`none` for geo tables). -/
def FeatureType.arity : FeatureType → Option Nat
  | .DATA => some 4
  | .MASK => some 4
  | .SCALAR => some 2
  | .LABEL => some 2
  | .DATA_TIMELESS => some 3
  | .MASK_TIMELESS => some 3
  | .SCALAR_TIMELESS => some 1
  | .LABEL_TIMELESS => some 1
  | .VECTOR => none
  | .VECTOR_TIMELESS => none

/-- The four timed raster/series feature types sharing the T axis. -/
def FeatureType.isTimed : FeatureType → Bool
  | .DATA | .MASK | .SCALAR | .LABEL => true
  | _ => false

/-- Dtype-family contract of each feature type. -/
def FeatureType.dtypeOk : FeatureType → Dtype → Bool
  | .DATA, d => d.isNumeric
  | .MASK, d => d.isInteger || d == .boolean
  | .SCALAR, d => d.isNumeric
  | .LABEL, d => d.isNumeric || d == .boolean
  | .DATA_TIMELESS, d => d.isNumeric
  | .MASK_TIMELESS, d => d.isInteger || d == .boolean
  | .SCALAR_TIMELESS, d => d.isNumeric
  | .LABEL_TIMELESS, d => d.isNumeric || d == .boolean
  | .VECTOR, _ => true
  | .VECTOR_TIMELESS, _ => true

/-- Modelled from the spec (§4.1 validation rules, library code not in
src/): a feature write is checked for shape arity, dtype family, and —
for timed types once `TIMESTAMP` is set — the shared leading time axis;
geo types require a table, and VECTOR rows must carry the TIMESTAMP
column. -/
def validateFeature (p : EOPatch) (ft : FeatureType) (pl : Payload) : Option EOError :=
  match ft.arity, pl with
  | some k, .array a =>
      if a.shape.length = k then
        if ft.dtypeOk a.dtype then
          if ft.isTimed then
            match p.timestamp with
            | some ts => if a.shape.headD 0 = ts.length then none else some .ShapeMismatch
            | none => none
          else none
        else some .DtypeMismatch
      else some .ShapeMismatch
  | some _, .table _ => some .ShapeMismatch
  | none, .array _ => some .ShapeMismatch
  | none, .table rows =>
      if ft = .VECTOR then
        if rows.all (fun r => r.timestampCol.isSome) then none else some .ShapeMismatch
      else none

/-- Test whether a stored feature entry is keyed by `(ft, n)`. -/
def featureKeyIs (ft : FeatureType) (n : String) (e : FeatureType × String × Payload) : Bool :=
  e.1 == ft && e.2.1 == n

/-- Read a feature slot: the payload, or `none` for a missing feature. -/
def EOPatch.getFeature (p : EOPatch) (ft : FeatureType) (n : String) : Option Payload :=
  (p.features.find? (featureKeyIs ft n)).map (fun e => e.2.2)

/-- Modelled from the spec (§4.1, library code not in src/): validated
feature write (`set_feature` / `add_feature` / dict-style assignment).
On a contract violation the error is returned and no partial write
happens; on success the slot is replaced (overwrite is allowed). -/
def EOPatch.setFeature (p : EOPatch) (ft : FeatureType) (n : String) (pl : Payload) :
    Except EOError EOPatch :=
  match validateFeature p ft pl with
  | some e => .error e
  | none =>
      .ok { p with features := (ft, n, pl) :: p.features.filter (fun e => ! featureKeyIs ft n e) }

/-- Remove a feature slot; idempotent on absent slots. -/
def EOPatch.removeFeature (p : EOPatch) (ft : FeatureType) (n : String) : EOPatch :=
  { p with features := p.features.filter (fun e => ! featureKeyIs ft n e) }

/- Basic container lemmas shared by several claims. -/

theorem getFeature_set_same (p p' : EOPatch) (ft : FeatureType) (n : String) (pl : Payload)
    (h : p.setFeature ft n pl = .ok p') : p'.getFeature ft n = some pl := by
  unfold EOPatch.setFeature at h
  cases hv : validateFeature p ft pl with
  | some e => rw [hv] at h; exact absurd h (by simp)
  | none =>
      rw [hv] at h
      cases h
      simp [EOPatch.getFeature, List.find?, featureKeyIs]

theorem find?_filter_ne (l : List (FeatureType × String × Payload))
    (ft ft' : FeatureType) (n n' : String) (hne : ¬(ft' = ft ∧ n' = n)) :
    (l.filter (fun e => ! featureKeyIs ft n e)).find? (featureKeyIs ft' n') =
      l.find? (featureKeyIs ft' n') := by
  induction l with
  | nil => rfl
  | cons e l ih =>
      by_cases hk : featureKeyIs ft' n' e
      · have hk2 : ¬ featureKeyIs ft n e := by
          intro hk3
          have h1 : e.1 = ft' ∧ e.2.1 = n' := by simpa [featureKeyIs] using hk
          have h2 : e.1 = ft ∧ e.2.1 = n := by simpa [featureKeyIs] using hk3
          exact hne ⟨h1.1.symm.trans h2.1, h1.2.symm.trans h2.2⟩
        rw [List.filter_cons_of_pos (by simpa using hk2),
          List.find?_cons_of_pos _ hk, List.find?_cons_of_pos _ hk]
      · by_cases hk3 : featureKeyIs ft n e
        · rw [List.filter_cons_of_neg (by simpa using hk3),
            List.find?_cons_of_neg _ hk, ih]
        · rw [List.filter_cons_of_pos (by simpa using hk3),
            List.find?_cons_of_neg _ hk, List.find?_cons_of_neg _ hk, ih]

theorem getFeature_set_other (p p' : EOPatch) (ft ft' : FeatureType) (n n' : String)
    (pl : Payload) (h : p.setFeature ft n pl = .ok p') (hne : ¬(ft' = ft ∧ n' = n)) :
    p'.getFeature ft' n' = p.getFeature ft' n' := by
  unfold EOPatch.setFeature at h
  cases hv : validateFeature p ft pl with
  | some e => rw [hv] at h; exact absurd h (by simp)
  | none =>
      rw [hv] at h
      cases h
      have hhead : ¬ featureKeyIs ft' n' (ft, n, pl) := by
        intro hx
        have h2 : ft = ft' ∧ n = n' := by simpa [featureKeyIs] using hx
        exact hne ⟨h2.1.symm, h2.2.symm⟩
      unfold EOPatch.getFeature
      rw [List.find?_cons_of_neg _ hhead, find?_filter_ne _ _ _ _ _ hne]

theorem setFeature_metadata (p p' : EOPatch) (ft : FeatureType) (n : String) (pl : Payload)
    (h : p.setFeature ft n pl = .ok p') :
    p'.bbox = p.bbox ∧ p'.timestamp = p.timestamp ∧ p'.meta_info = p.meta_info := by
  unfold EOPatch.setFeature at h
  cases hv : validateFeature p ft pl with
  | some e => rw [hv] at h; exact absurd h (by simp)
  | none => rw [hv] at h; cases h; exact ⟨rfl, rfl, rfl⟩

/- Claim C1: the set/get contract with validation and atomic failure. -/

/-- C1: for every Patch, feature type, name and payload, if the payload
satisfies the feature type's shape-arity and dtype-family contract (the
write validation accepts it) then the dict-style write succeeds and a
subsequent read of that slot returns exactly the written payload; if the
payload violates the contract the write fails with the matching
shape/dtype error kind and produces no modified Patch (no partial
write). -/
theorem set_get_feature_contract (p : EOPatch) (ft : FeatureType) (n : String) (pl : Payload) :
    (validateFeature p ft pl = none →
      ∃ p', p.setFeature ft n pl = .ok p' ∧ p'.getFeature ft n = some pl) ∧
    (∀ e, validateFeature p ft pl = some e → p.setFeature ft n pl = .error e) := by
  constructor
  · intro h
    refine ⟨{ p with
        features := (ft, n, pl) :: p.features.filter (fun e => ! featureKeyIs ft n e) },
      ?_, ?_⟩
    · unfold EOPatch.setFeature
      rw [h]
    · apply getFeature_set_same p _ ft n pl
      unfold EOPatch.setFeature
      rw [h]
  · intro e h
    unfold EOPatch.setFeature
    rw [h]

/-- Witness for C1, following the spec's S1 scenario: on an empty Patch a
`(5, 10, 10, 3)` uint16 array is accepted under `DATA` and read back, a
3-dimensional array under `DATA` is rejected with ShapeMismatch, and the
same 3-dimensional array is accepted under `DATA_TIMELESS`. -/
theorem set_get_feature_contract_witness :
    (∃ p', EOPatch.empty.setFeature .DATA "example"
        (.array ⟨[5, 10, 10, 3], .uint16, []⟩) = .ok p' ∧
      p'.getFeature .DATA "example" = some (.array ⟨[5, 10, 10, 3], .uint16, []⟩)) ∧
    EOPatch.empty.setFeature .DATA "timeless_example"
        (.array ⟨[10, 10, 13], .uint16, []⟩) = .error .ShapeMismatch ∧
    (∃ p', EOPatch.empty.setFeature .DATA_TIMELESS "timeless_example"
        (.array ⟨[10, 10, 13], .uint16, []⟩) = .ok p') := by
  refine ⟨(set_get_feature_contract EOPatch.empty .DATA "example"
      (.array ⟨[5, 10, 10, 3], .uint16, []⟩)).1 (by decide),
    (set_get_feature_contract EOPatch.empty .DATA "timeless_example"
      (.array ⟨[10, 10, 13], .uint16, []⟩)).2 .ShapeMismatch (by decide),
    ?_⟩
  obtain ⟨p', h, -⟩ := (set_get_feature_contract EOPatch.empty .DATA_TIMELESS
    "timeless_example" (.array ⟨[10, 10, 13], .uint16, []⟩)).1 (by decide)
  exact ⟨p', h⟩

/- Claim C4: the shared time axis fixed by TIMESTAMP. -/

/-- C4: once the Patch's TIMESTAMP metadata is set with length `T`, a
write of a timed feature (DATA, MASK, SCALAR, LABEL) whose payload has
the right arity and dtype succeeds exactly when its leading dimension
equals `T`, and fails with ShapeMismatch when it differs. -/
theorem timed_axis_matches_timestamp (p : EOPatch) (ft : FeatureType) (n : String)
    (a : NDArray) (ts : List Nat)
    (hts : p.timestamp = some ts)
    (htimed : ft.isTimed = true)
    (har : ft.arity = some a.shape.length)
    (hdt : ft.dtypeOk a.dtype = true) :
    (a.shape.headD 0 ≠ ts.length →
      p.setFeature ft n (.array a) = .error .ShapeMismatch) ∧
    (a.shape.headD 0 = ts.length →
      ∃ p', p.setFeature ft n (.array a) = .ok p') := by
  have hv : validateFeature p ft (.array a) =
      if a.shape.headD 0 = ts.length then none else some .ShapeMismatch := by
    unfold validateFeature
    rw [har]
    simp [hdt, htimed, hts]
  constructor
  · intro hne
    unfold EOPatch.setFeature
    rw [hv, if_neg hne]
  · intro heq
    unfold EOPatch.setFeature
    rw [hv, if_pos heq]
    exact ⟨_, rfl⟩

/-- Witness for C4: on a Patch whose TIMESTAMP has length 1, adding a
DATA payload with leading dimension 5 fails with ShapeMismatch, and a
DATA payload with leading dimension 1 succeeds. -/
theorem timed_axis_matches_timestamp_witness :
    ({ EOPatch.empty with timestamp := some [0] } : EOPatch).setFeature .DATA "bands"
        (.array ⟨[5, 100, 100, 13], .float64, []⟩) = .error .ShapeMismatch ∧
    (∃ p', ({ EOPatch.empty with timestamp := some [0] } : EOPatch).setFeature .DATA "bands"
        (.array ⟨[1, 100, 100, 13], .float64, []⟩) = .ok p') := by
  constructor
  · exact (timed_axis_matches_timestamp _ .DATA "bands" ⟨[5, 100, 100, 13], .float64, []⟩
      [0] rfl rfl rfl rfl).1 (by decide)
  · exact (timed_axis_matches_timestamp _ .DATA "bands" ⟨[1, 100, 100, 13], .float64, []⟩
      [0] rfl rfl rfl rfl).2 (by decide)

/- Claim C2: on-disk persistence round trip. -/

/-- Subdirectory of each feature type in the on-disk patch layout
(§6.1). -/
def FeatureType.dirName : FeatureType → String
  | .DATA => "data"
  | .MASK => "mask"
  | .SCALAR => "scalar"
  | .LABEL => "label"
  | .DATA_TIMELESS => "data_timeless"
  | .MASK_TIMELESS => "mask_timeless"
  | .SCALAR_TIMELESS => "scalar_timeless"
  | .LABEL_TIMELESS => "label_timeless"
  | .VECTOR => "vector"
  | .VECTOR_TIMELESS => "vector_timeless"

/-- Feature type recovered from a subdirectory name on load. -/
def FeatureType.ofDirName (s : String) : Option FeatureType :=
  if s = "data" then some .DATA
  else if s = "mask" then some .MASK
  else if s = "scalar" then some .SCALAR
  else if s = "label" then some .LABEL
  else if s = "data_timeless" then some .DATA_TIMELESS
  else if s = "mask_timeless" then some .MASK_TIMELESS
  else if s = "scalar_timeless" then some .SCALAR_TIMELESS
  else if s = "label_timeless" then some .LABEL_TIMELESS
  else if s = "vector" then some .VECTOR
  else if s = "vector_timeless" then some .VECTOR_TIMELESS
  else none

/-- Numeric code a binary array file records for its dtype. -/
def Dtype.code : Dtype → Nat
  | .uint8 => 0
  | .uint16 => 1
  | .int64 => 2
  | .float32 => 3
  | .float64 => 4
  | .boolean => 5

/-- Dtype recovered from its recorded code. -/
def Dtype.ofCode (c : Nat) : Option Dtype :=
  if c = 0 then some .uint8
  else if c = 1 then some .uint16
  else if c = 2 then some .int64
  else if c = 3 then some .float32
  else if c = 4 then some .float64
  else if c = 5 then some .boolean
  else none

/-- Content of one file of a saved patch: a binary array file encoding
dtype, shape and raw contents, or a geometry container file. -/
inductive FileContent
  | arrayFile (header : List Nat) (raw : List ℚ)
  | geoFile (rows : List GeoRow)
deriving DecidableEq

/-- Serialize one payload to its on-disk file content. -/
def encodePayload : Payload → FileContent
  | .array a => .arrayFile (a.dtype.code :: a.shape) a.data
  | .table rows => .geoFile rows

/-- Parse one on-disk file content back into a payload. -/
def decodePayload : FileContent → Option Payload
  | .arrayFile [] _ => none
  | .arrayFile (c :: shape) raw => (Dtype.ofCode c).map (fun d => .array ⟨shape, d, raw⟩)
  | .geoFile rows => some (.table rows)

/-- Modelled from the spec (§6.1, persistence is library code not in
src/): a saved Patch directory — one file per feature under its feature
type's subdirectory, plus the three metadata files. -/
structure PatchDir where
  featureFiles : List (String × String × FileContent)
  bboxFile : Option BBox
  timestampFile : Option (List Nat)
  metaInfoFile : Option MetaInfo
deriving DecidableEq

/-- Modelled from the spec (§6.1, not in src/): `patch.save` writes one
file per present feature slot under the feature type's subdirectory and
one file per populated metadata slot. -/
def EOPatch.save (p : EOPatch) : PatchDir :=
  ⟨p.features.map (fun e => (e.1.dirName, e.2.1, encodePayload e.2.2)),
    p.bbox, p.timestamp, p.meta_info⟩

/-- Modelled from the spec (§6.1, not in src/): `load` reconstructs every
slot present in the directory; slots with no file remain empty. -/
def EOPatch.load (d : PatchDir) : EOPatch :=
  ⟨d.featureFiles.filterMap (fun e =>
      match FeatureType.ofDirName e.1, decodePayload e.2.2 with
      | some ft, some pl => some (ft, e.2.1, pl)
      | _, _ => none),
    d.bboxFile, d.timestampFile, d.metaInfoFile⟩

theorem ofDirName_dirName (ft : FeatureType) : FeatureType.ofDirName ft.dirName = some ft := by
  cases ft <;> rfl

theorem ofCode_code (d : Dtype) : Dtype.ofCode d.code = some d := by
  cases d <;> rfl

theorem decode_encode (pl : Payload) : decodePayload (encodePayload pl) = some pl := by
  cases pl with
  | array a => simp [encodePayload, decodePayload, ofCode_code]
  | table rows => rfl

theorem load_save_eq (p : EOPatch) : EOPatch.load p.save = p := by
  unfold EOPatch.save EOPatch.load
  cases p with
  | mk fs bb ts mi =>
      simp only [EOPatch.mk.injEq, and_true]
      rw [List.filterMap_map]
      have : ∀ e ∈ fs,
          (fun e : FeatureType × String × Payload =>
            match FeatureType.ofDirName (e.1.dirName), decodePayload (encodePayload e.2.2) with
            | some ft, some pl => some (ft, e.2.1, pl)
            | _, _ => none) e = some e := by
        intro e _
        simp only [ofDirName_dirName, decode_encode]
      calc fs.filterMap _ = fs.filterMap some := List.filterMap_congr this
        _ = fs := List.filterMap_some ..

/-- C2: saving a Patch to a directory and loading that directory back
reconstructs every populated feature slot with the same payload, dtype
and ordering, leaves slots absent in the Patch empty, and restores the
three metadata slots. -/
theorem load_save_roundtrip (p : EOPatch) :
    (∀ ft n, (EOPatch.load p.save).getFeature ft n = p.getFeature ft n) ∧
    (EOPatch.load p.save).features = p.features ∧
    (EOPatch.load p.save).bbox = p.bbox ∧
    (EOPatch.load p.save).timestamp = p.timestamp ∧
    (EOPatch.load p.save).meta_info = p.meta_info := by
  rw [load_save_eq]
  exact ⟨fun _ _ => rfl, rfl, rfl, rfl, rfl⟩

/- Claim C3: linear workflow execution equals sequential task
composition. -/

/-- Runtime keyword-argument bundle passed to one task invocation. -/
abbrev Kwargs := List (String × String)

/-- Modelled from the spec (§4.2, the task base class is library code
not in src/): a task is abstracted by its `execute` operation, taking
the incoming Patch and a runtime kwargs bundle to the outgoing Patch. -/
structure EOTask where
  execute : EOPatch → Kwargs → EOPatch

/-- Modelled from the spec (§4.3, not in src/): the common-case workflow
constructor takes an ordered list of tasks and wires them linearly, the
output of task i being the input of task i+1.  Task identity is the
construction-order index, so the per-task kwargs mapping is embedded as
a list aligned with the task list (missing entries default to empty). -/
structure LinearWorkflow where
  tasks : List EOTask

/-- Result of a workflow execution: the Patch produced by each task in
execution order. -/
structure WorkflowResult where
  outputs : List EOPatch

/-- The sink task's output Patch. -/
def WorkflowResult.final_patch (r : WorkflowResult) : Option EOPatch :=
  r.outputs.getLast?

/-- Run the tasks of a linear workflow in order over the Patch,
recording every intermediate output. -/
def runLinear : List EOTask → List Kwargs → EOPatch → List EOPatch
  | [], _, _ => []
  | t :: ts, kws, p =>
      t.execute p (kws.headD []) :: runLinear ts kws.tail (t.execute p (kws.headD []))

/-- Modelled from the spec (§4.3, not in src/): workflow execution in
topological order, which for a linear workflow is the construction
order. -/
def LinearWorkflow.execute (w : LinearWorkflow) (kws : List Kwargs) (p : EOPatch) :
    WorkflowResult :=
  ⟨runLinear w.tasks kws p⟩

/-- Reference right-hand side of the workflow law: call each task's
execute directly in sequence, feeding the output of task i to task
i+1. -/
def chainExecute : List EOTask → List Kwargs → EOPatch → EOPatch
  | [], _, p => p
  | t :: ts, kws, p => chainExecute ts kws.tail (t.execute p (kws.headD []))

theorem runLinear_final (ts : List EOTask) (kws : List Kwargs) (p : EOPatch)
    (h : ts ≠ []) : (runLinear ts kws p).getLast? = some (chainExecute ts kws p) := by
  induction ts generalizing kws p with
  | nil => exact absurd rfl h
  | cons t ts ih =>
      cases ts with
      | nil => rfl
      | cons t' ts' =>
          rw [runLinear, chainExecute, runLinear, List.getLast?_cons_cons]
          have hrec := ih kws.tail (t.execute p (kws.headD [])) (by simp)
          rw [runLinear] at hrec
          exact hrec

/-- C3: for every nonempty linear workflow and every initial Patch with
per-task kwargs bundles, the final Patch of the workflow execution
equals the result of calling each task's execute in sequence, the output
of task i fed as the input of task i+1. -/
theorem linear_workflow_eq_chain (w : LinearWorkflow) (kws : List Kwargs) (p : EOPatch)
    (h : w.tasks ≠ []) :
    (w.execute kws p).final_patch = some (chainExecute w.tasks kws p) := by
  unfold LinearWorkflow.execute WorkflowResult.final_patch
  exact runLinear_final w.tasks kws p h

/-- Witness for C3: a concrete two-task workflow (set TIMESTAMP, then
set BBOX) executed on the empty Patch ends in the two-step sequential
result. -/
theorem linear_workflow_eq_chain_witness :
    (LinearWorkflow.mk [⟨fun p _ => { p with timestamp := some [7] }⟩,
        ⟨fun p _ => { p with bbox := some ⟨24, 45, 25, 46, .WGS84⟩ }⟩] : LinearWorkflow).tasks
          ≠ [] ∧
    ((LinearWorkflow.mk [⟨fun p _ => { p with timestamp := some [7] }⟩,
        ⟨fun p _ => { p with bbox := some ⟨24, 45, 25, 46, .WGS84⟩ }⟩]).execute [[], []]
          EOPatch.empty).final_patch =
      some (chainExecute [⟨fun p _ => { p with timestamp := some [7] }⟩,
        ⟨fun p _ => { p with bbox := some ⟨24, 45, 25, 46, .WGS84⟩ }⟩] [[], []]
          EOPatch.empty) := by
  refine ⟨by simp, linear_workflow_eq_chain _ [[], []] EOPatch.empty (by simp)⟩

/- MedianPixel: the user-defined task of the notebook, and the NumPy
median it calls. -/

/-- AddFeature task (§4.2.1): constructed with a `(ftype, name)` target;
execute writes the runtime payload to that slot, feature-type validation
applying. -/
structure AddFeature where
  feature : FeatureType × String

/-- Execute AddFeature on a patch with a runtime payload. -/
def AddFeature.run (tk : AddFeature) (p : EOPatch) (pl : Payload) : EOPatch × Option EOError :=
  match p.setFeature tk.feature.1 tk.feature.2 pl with
  | .ok p' => (p', none)
  | .error e => (p, some e)

/-- Modelled from NumPy (external to src/): median of a list of values —
the middle element of the sorted list for odd length, the midpoint of
the two middle elements for even length. -/
def listMedian (l : List ℚ) : ℚ :=
  if l.length % 2 = 1 then (l.insertionSort (fun x y => x ≤ y)).getD (l.length / 2) 0
  else ((l.insertionSort (fun x y => x ≤ y)).getD (l.length / 2 - 1) 0 +
    (l.insertionSort (fun x y => x ≤ y)).getD (l.length / 2) 0) / 2

/-- Modelled from NumPy (external to src/): `np.median(arr, axis=0)` on
a row-major flattened array — the output drops the leading axis, and the
cell at flat position `idx` is the median of the `t` input cells at flat
positions `ti * prod(rest) + idx`. -/
def npMedianAxis0 : Payload → Option NDArray
  | .array a =>
      match a.shape with
      | [] => none
      | t :: rest =>
          some ⟨rest, .float64,
            (List.range rest.prod).map (fun idx =>
              listMedian ((List.range t).map
                (fun ti => a.data.getD (ti * rest.prod + idx) 0)))⟩
  | .table _ => none

/-- The MedianPixel task as defined in the notebook: configured with an
input `(ftype, name)` pair and an output `(ftype, name)` pair. -/
structure MedianPixel where
  input_feature : FeatureType × String
  output_feature : FeatureType × String

/-- `MedianPixel.execute` from the notebook: look up the input feature
(raising a missing-feature error when absent), take the pixelwise median
along the time axis, `add_feature` the result into the output slot of
the same patch, and return that patch.  The state component of the
result is the patch as left by the call: the feature lookup precedes the
only write, and the validated write is atomic, so on any error the patch
is unchanged. -/
def MedianPixel.run (tk : MedianPixel) (p : EOPatch) : EOPatch × Option EOError :=
  match p.getFeature tk.input_feature.1 tk.input_feature.2 with
  | none => (p, some .MissingFeature)
  | some pl =>
      match npMedianAxis0 pl with
      | none => (p, some .ShapeMismatch)
      | some m =>
          match p.setFeature tk.output_feature.1 tk.output_feature.2 (.array m) with
          | .ok p' => (p', none)
          | .error e => (p, some e)

theorem getD_range_map (n i : Nat) (f : Nat → ℚ) (d : ℚ) (h : i < n) :
    ((List.range n).map f).getD i d = f i := by
  rw [List.getD_eq_getElem?_getD, List.getElem?_map, List.getElem?_range h]
  rfl

theorem flat_index_lt (i j k H W C : Nat) (hi : i < H) (hj : j < W) (hk : k < C) :
    (i * W + j) * C + k < H * W * C := by
  have h1 : i * W + j < H * W := by
    calc i * W + j < i * W + W := by omega
      _ = (i + 1) * W := by ring
      _ ≤ H * W := Nat.mul_le_mul_right W (by omega)
  calc (i * W + j) * C + k < (i * W + j) * C + C := by omega
    _ = ((i * W + j) + 1) * C := by ring
    _ ≤ (H * W) * C := Nat.mul_le_mul_right C (by omega)
    _ = H * W * C := by ring

theorem prod_three (H W C : Nat) : ([H, W, C] : List Nat).prod = H * W * C := by
  simp [List.prod_cons]
  ring

/- Claim C10: missing input feature fails before any write. -/

/-- C10: on a Patch that does not contain the configured input feature,
`MedianPixel.execute` fails with the missing-feature lookup error and
the patch state is exactly the one it received — the lookup precedes the
task's only write. -/
theorem medianpixel_missing_input (tk : MedianPixel) (p : EOPatch)
    (h : p.getFeature tk.input_feature.1 tk.input_feature.2 = none) :
    tk.run p = (p, some .MissingFeature) := by
  unfold MedianPixel.run
  rw [h]

/-- Witness for C10: the median task of the notebook applied to the
empty Patch fails with MissingFeature and leaves it empty. -/
theorem medianpixel_missing_input_witness :
    (MedianPixel.mk (.DATA, "time_series") (.DATA_TIMELESS, "median")).run EOPatch.empty =
      (EOPatch.empty, some .MissingFeature) :=
  medianpixel_missing_input _ EOPatch.empty rfl

/- Claim C9: frame effect of a successful MedianPixel execution. -/

/-- C9: a successful `MedianPixel.execute` returns the patch it was
handed back to the caller (the notebook's `return eopatch`), and every
feature slot other than the configured output slot — as well as BBOX,
TIMESTAMP and META_INFO — is unchanged. -/
theorem medianpixel_frame (tk : MedianPixel) (p p' : EOPatch)
    (h : tk.run p = (p', none)) :
    (∀ ft n, ¬(ft = tk.output_feature.1 ∧ n = tk.output_feature.2) →
      p'.getFeature ft n = p.getFeature ft n) ∧
    p'.bbox = p.bbox ∧ p'.timestamp = p.timestamp ∧ p'.meta_info = p.meta_info := by
  unfold MedianPixel.run at h
  cases hg : p.getFeature tk.input_feature.1 tk.input_feature.2 with
  | none => rw [hg] at h; simp at h
  | some pl =>
      rw [hg] at h
      dsimp only at h
      cases hm : npMedianAxis0 pl with
      | none => rw [hm] at h; simp at h
      | some m =>
          rw [hm] at h
          dsimp only at h
          cases hs : p.setFeature tk.output_feature.1 tk.output_feature.2 (.array m) with
          | error e => rw [hs] at h; simp at h
          | ok q =>
              rw [hs] at h
              dsimp only at h
              have hq : q = p' := by
                have := congrArg Prod.fst h
                simpa using this
              subst hq
              refine ⟨fun ft n hne => ?_, setFeature_metadata _ _ _ _ _ hs⟩
              exact getFeature_set_other _ _ _ _ _ _ _ hs hne

/-- A concrete Patch used by witnesses: a 3-date 1x1x1 time series under
DATA, an unrelated MASK_TIMELESS feature, and all three metadata slots
populated. -/
def samplePatch : EOPatch :=
  ⟨[(.DATA, "time_series", .array ⟨[3, 1, 1, 1], .uint16, [3, 1, 2]⟩),
    (.MASK_TIMELESS, "keep", .array ⟨[1, 1, 1], .uint8, [1]⟩)],
    some ⟨24, 45, 25, 46, .WGS84⟩, some [10, 20, 30], some [("a", "5")]⟩

/-- The median task exactly as instantiated in the notebook. -/
def sampleMedianTask : MedianPixel := ⟨(.DATA, "time_series"), (.DATA_TIMELESS, "median")⟩

/-- The patch produced by running the notebook's median task on the
sample patch. -/
def sampleMedianOut : EOPatch := (sampleMedianTask.run samplePatch).1

/-- Witness for C9: running the notebook's median task on the sample
patch succeeds and the unrelated MASK_TIMELESS slot is unchanged. -/
theorem medianpixel_frame_witness :
    sampleMedianOut.getFeature .MASK_TIMELESS "keep" =
      samplePatch.getFeature .MASK_TIMELESS "keep" :=
  (medianpixel_frame sampleMedianTask samplePatch sampleMedianOut (by decide)).1
    .MASK_TIMELESS "keep" (by decide)

/- Claim C5: functional correctness of MedianPixel. -/

/-- C5: on a Patch holding `DATA[time_series]` of shape (T, H, W, C),
the MedianPixel task of the notebook succeeds, returns the patch, and
writes under `DATA_TIMELESS[median]` an array of shape (H, W, C) whose
every element is the median of the T values at that pixel position. -/
theorem medianpixel_median_correct (p : EOPatch) (T H W C : Nat) (a : NDArray)
    (hin : p.getFeature .DATA "time_series" = some (.array a))
    (hsh : a.shape = [T, H, W, C]) :
    ∃ p', (MedianPixel.mk (.DATA, "time_series") (.DATA_TIMELESS, "median")).run p
        = (p', none) ∧
      ∃ out : NDArray,
        p'.getFeature .DATA_TIMELESS "median" = some (.array out) ∧
        out.shape = [H, W, C] ∧
        ∀ i j k, i < H → j < W → k < C →
          out.data.getD ((i * W + j) * C + k) 0 =
            listMedian ((List.range T).map
              (fun t => a.data.getD (((t * H + i) * W + j) * C + k) 0)) := by
  have hm : npMedianAxis0 (.array a) = some ⟨[H, W, C], .float64,
      (List.range ([H, W, C] : List Nat).prod).map (fun idx =>
        listMedian ((List.range T).map
          (fun ti => a.data.getD (ti * ([H, W, C] : List Nat).prod + idx) 0)))⟩ := by
    unfold npMedianAxis0
    dsimp only
    rw [hsh]
  have hval : validateFeature p .DATA_TIMELESS
      (.array ⟨[H, W, C], .float64,
        (List.range ([H, W, C] : List Nat).prod).map (fun idx =>
          listMedian ((List.range T).map
            (fun ti => a.data.getD (ti * ([H, W, C] : List Nat).prod + idx) 0)))⟩) = none := by
    simp [validateFeature, FeatureType.arity, FeatureType.dtypeOk, FeatureType.isTimed,
      Dtype.isNumeric, Dtype.isFloat]
  have hset : p.setFeature .DATA_TIMELESS "median"
      (.array ⟨[H, W, C], .float64,
        (List.range ([H, W, C] : List Nat).prod).map (fun idx =>
          listMedian ((List.range T).map
            (fun ti => a.data.getD (ti * ([H, W, C] : List Nat).prod + idx) 0)))⟩) =
      .ok { p with features := (.DATA_TIMELESS, "median",
        .array ⟨[H, W, C], .float64,
          (List.range ([H, W, C] : List Nat).prod).map (fun idx =>
            listMedian ((List.range T).map
              (fun ti => a.data.getD (ti * ([H, W, C] : List Nat).prod + idx) 0)))⟩) ::
        p.features.filter (fun e => ! featureKeyIs .DATA_TIMELESS "median" e) } := by
    unfold EOPatch.setFeature
    rw [hval]
  refine ⟨_, ?_, _, getFeature_set_same _ _ _ _ _ hset, rfl, ?_⟩
  · unfold MedianPixel.run
    dsimp only
    rw [hin]
    dsimp only
    rw [hm]
    dsimp only
    rw [hset]
  · intro i j k hi hj hk
    have hb : (i * W + j) * C + k < ([H, W, C] : List Nat).prod := by
      rw [prod_three]
      exact flat_index_lt i j k H W C hi hj hk
    show ((List.range (([H, W, C] : List Nat).prod)).map _).getD _ 0 = _
    rw [getD_range_map _ _ _ _ hb]
    apply congrArg listMedian
    apply List.map_congr_left
    intro t ht
    have hidx : t * ([H, W, C] : List Nat).prod + ((i * W + j) * C + k) =
        ((t * H + i) * W + j) * C + k := by
      rw [prod_three]
      ring
    rw [hidx]

/-- Witness for C5: on the sample patch the median task writes a
(1, 1, 1) DATA_TIMELESS array whose single element is the median of the
three dates. -/
theorem medianpixel_median_correct_witness :
    ∃ p', (MedianPixel.mk (.DATA, "time_series") (.DATA_TIMELESS, "median")).run samplePatch
        = (p', none) ∧
      ∃ out : NDArray,
        p'.getFeature .DATA_TIMELESS "median" = some (.array out) ∧
        out.shape = [1, 1, 1] ∧
        ∀ i j k, i < 1 → j < 1 → k < 1 →
          out.data.getD ((i * 1 + j) * 1 + k) 0 =
            listMedian ((List.range 3).map
              (fun t => (⟨[3, 1, 1, 1], .uint16, [3, 1, 2]⟩ : NDArray).data.getD
                (((t * 1 + i) * 1 + j) * 1 + k) 0)) :=
  medianpixel_median_correct samplePatch 3 1 1 1 ⟨[3, 1, 1, 1], .uint16, [3, 1, 2]⟩
    (by decide) rfl

/- Claim C6: all-or-nothing remote coverage ingestion. -/

theorem setFeature_error_validate (p : EOPatch) (ft : FeatureType) (n : String)
    (pl : Payload) (e : EOError) (h : p.setFeature ft n pl = .error e) :
    validateFeature p ft pl = some e := by
  unfold EOPatch.setFeature at h
  cases hv : validateFeature p ft pl with
  | some e' => rw [hv] at h; cases h; rfl
  | none => rw [hv] at h; exact absurd h (by simp)

/-- Result of one per-date tile request to the remote coverage
service. -/
inductive TileResult
  | tile (dat : List ℚ) (valid : List ℚ)
  | svcError
  | rateLimited

/-- Modelled from the spec (§4.2.3/§6.2, remote ingestion is library
code not in src/): the remote coverage service abstracted by its
acquisition dates intersecting the patch footprint, its fixed per-tile
spatial dimensions and channel count for the layer, and its per-date
response. -/
structure CoverageService where
  dates : List Nat
  tileH : Nat
  tileW : Nat
  tileC : Nat
  resp : Nat → TileResult

/-- The S2L1CWCSInput task: a Sentinel Hub layer name and a target
resolution along x and y. -/
structure S2L1CWCSInput where
  layer : String
  resx : String
  resy : String

/-- Acquisition dates of the service falling within the inclusive time
interval. -/
def datesIn (svc : CoverageService) (iv : Nat × Nat) : List Nat :=
  svc.dates.filter (fun d => iv.1 ≤ d && d ≤ iv.2)

/-- Request the tile of every date; the first service error or rate
limit aborts the whole download. -/
def collectTiles (svc : CoverageService) : List Nat → Except EOError (List (List ℚ × List ℚ))
  | [] => .ok []
  | d :: ds =>
      match svc.resp d with
      | .tile dat valid =>
          match collectTiles svc ds with
          | .ok rest => .ok ((dat, valid) :: rest)
          | .error e => .error e
      | .svcError => .error .RemoteUnavailable
      | .rateLimited => .error .RemoteTransient

/-- The (T, H, W, C) stack of the downloaded per-date rasters. -/
def wcsStack (svc : CoverageService) (ds : List Nat) (tiles : List (List ℚ × List ℚ)) :
    NDArray :=
  ⟨[ds.length, svc.tileH, svc.tileW, svc.tileC], .float32, (tiles.map (fun t => t.1)).flatten⟩

/-- The (T, H, W, 1) stack of the per-date validity masks. -/
def wcsMaskStack (svc : CoverageService) (ds : List Nat) (tiles : List (List ℚ × List ℚ)) :
    NDArray :=
  ⟨[ds.length, svc.tileH, svc.tileW, 1], .uint8, (tiles.map (fun t => t.2)).flatten⟩

/-- META_INFO fields describing the layer, the service and the requested
resolution. -/
def wcsMeta (tk : S2L1CWCSInput) : MetaInfo :=
  [("service_type", "wcs"), ("layer", tk.layer), ("resx", tk.resx), ("resy", tk.resy)]

/-- Write everything the ingestion produces into the patch: TIMESTAMP,
META_INFO, the layer stack under DATA and the validity stack under
MASK. -/
def wcsIngest (tk : S2L1CWCSInput) (svc : CoverageService) (p : EOPatch) (ds : List Nat)
    (tiles : List (List ℚ × List ℚ)) : Except EOError EOPatch :=
  match ({ p with timestamp := some ds, meta_info := some (wcsMeta tk) } : EOPatch).setFeature
      .DATA tk.layer (.array (wcsStack svc ds tiles)) with
  | .error e => .error e
  | .ok p2 => p2.setFeature .MASK "IS_DATA" (.array (wcsMaskStack svc ds tiles))

/-- Modelled from the spec (§4.2.3, not in src/): execute the ingestion
task.  All failure checks and all tile requests happen before the first
write to the patch, so any failure leaves the patch untouched. -/
def S2L1CWCSInput.run (tk : S2L1CWCSInput) (svc : CoverageService) (p : EOPatch)
    (iv : Nat × Nat) : EOPatch × Option EOError :=
  match p.bbox with
  | none => (p, some .MissingMetadata)
  | some _ =>
      if (datesIn svc iv).isEmpty then (p, some .EmptyDateRange)
      else
        match collectTiles svc (datesIn svc iv) with
        | .error e => (p, some e)
        | .ok tiles =>
            match wcsIngest tk svc p (datesIn svc iv) tiles with
            | .ok p3 => (p3, none)
            | .error e => (p, some e)

theorem wcsIngest_ok (tk : S2L1CWCSInput) (svc : CoverageService) (p : EOPatch)
    (ds : List Nat) (tiles : List (List ℚ × List ℚ)) :
    ∃ p3, wcsIngest tk svc p ds tiles = .ok p3 ∧
      p3.timestamp = some ds ∧
      p3.getFeature .DATA tk.layer = some (.array (wcsStack svc ds tiles)) ∧
      p3.getFeature .MASK "IS_DATA" = some (.array (wcsMaskStack svc ds tiles)) ∧
      p3.meta_info = some (wcsMeta tk) := by
  have hval1 : validateFeature
      ({ p with timestamp := some ds, meta_info := some (wcsMeta tk) } : EOPatch) .DATA
      (.array (wcsStack svc ds tiles)) = none := by
    simp [validateFeature, FeatureType.arity, FeatureType.dtypeOk, FeatureType.isTimed,
      Dtype.isNumeric, Dtype.isFloat, wcsStack]
  cases h1 : ({ p with timestamp := some ds, meta_info := some (wcsMeta tk) } : EOPatch).setFeature
      .DATA tk.layer (.array (wcsStack svc ds tiles)) with
  | error e =>
      have hc := setFeature_error_validate _ _ _ _ _ h1
      rw [hval1] at hc
      exact absurd hc (by simp)
  | ok p2 =>
      have hts2 : p2.timestamp = some ds := (setFeature_metadata _ _ _ _ _ h1).2.1
      have hmi2 : p2.meta_info = some (wcsMeta tk) := (setFeature_metadata _ _ _ _ _ h1).2.2
      have hval2 : validateFeature p2 .MASK (.array (wcsMaskStack svc ds tiles)) = none := by
        simp [validateFeature, FeatureType.arity, FeatureType.dtypeOk, FeatureType.isTimed,
          Dtype.isInteger, wcsMaskStack, hts2]
      cases h2 : p2.setFeature .MASK "IS_DATA" (.array (wcsMaskStack svc ds tiles)) with
      | error e =>
          have hc := setFeature_error_validate _ _ _ _ _ h2
          rw [hval2] at hc
          exact absurd hc (by simp)
      | ok p3 =>
          refine ⟨p3, ?_, ?_, ?_, ?_, ?_⟩
          · unfold wcsIngest
            rw [h1]
            exact h2
          · rw [(setFeature_metadata _ _ _ _ _ h2).2.1, hts2]
          · rw [getFeature_set_other _ _ _ _ _ _ _ h2 (by simp)]
            exact getFeature_set_same _ _ _ _ _ h1
          · exact getFeature_set_same _ _ _ _ _ h2
          · rw [(setFeature_metadata _ _ _ _ _ h2).2.2, hmi2]

/-- C6: every execution of the ingestion task is all-or-nothing — either
it fails (missing BBOX, empty date range, service error, rate limit)
with the patch returned exactly unchanged, or every acquisition date in
the interval is ingested: TIMESTAMP holds all those dates, the layer
stack of shape (T, H, W, C) sits under DATA, a validity MASK and
META_INFO are populated. -/
theorem wcs_all_or_nothing (tk : S2L1CWCSInput) (svc : CoverageService) (p : EOPatch)
    (iv : Nat × Nat) :
    (∃ e, tk.run svc p iv = (p, some e)) ∨
    (∃ p', tk.run svc p iv = (p', none) ∧
      datesIn svc iv ≠ [] ∧
      p'.timestamp = some (datesIn svc iv) ∧
      (∃ a, p'.getFeature .DATA tk.layer = some (.array a) ∧
        a.shape = [(datesIn svc iv).length, svc.tileH, svc.tileW, svc.tileC]) ∧
      (∃ m, p'.getFeature .MASK "IS_DATA" = some (.array m)) ∧
      p'.meta_info.isSome = true) := by
  unfold S2L1CWCSInput.run
  cases hb : p.bbox with
  | none => exact .inl ⟨.MissingMetadata, rfl⟩
  | some bb =>
      dsimp only
      by_cases hemp : (datesIn svc iv).isEmpty
      · rw [if_pos hemp]
        exact .inl ⟨.EmptyDateRange, rfl⟩
      · rw [if_neg hemp]
        cases hct : collectTiles svc (datesIn svc iv) with
        | error e => exact .inl ⟨e, rfl⟩
        | ok tiles =>
            dsimp only
            obtain ⟨p3, hing, hts, hdata, hmask, hmi⟩ := wcsIngest_ok tk svc p (datesIn svc iv) tiles
            rw [hing]
            refine .inr ⟨p3, rfl, ?_, hts, ⟨_, hdata, rfl⟩, ⟨_, hmask⟩, by rw [hmi]; rfl⟩
            intro hnil
            rw [hnil] at hemp
            exact hemp rfl

/- Claim C7: SaveToDisk overwrite policy. -/

/-- Overwrite policies of the persistence layer (§4.2.5). -/
inductive OverwritePermission
  | NEVER
  | OVERWRITE_PATCH
  | OVERWRITE_FEATURES
deriving DecidableEq

/-- The SaveToDisk task: a base directory and an overwrite policy. -/
structure SaveToDisk where
  baseFolder : String
  overwrite_permission : OverwritePermission

/-- The filesystem abstracted as a mapping from patch-folder path to the
saved patch directory it holds. -/
abbrev FileSystem := List (String × PatchDir)

/-- Look a folder up in the filesystem. -/
def fsLookup (fs : FileSystem) (path : String) : Option PatchDir :=
  (fs.find? (fun e => e.1 == path)).map (fun e => e.2)

/-- OVERWRITE_FEATURES merge: feature files of the new patch replace
same-named files of the old folder, other old files are kept; metadata
files are replaced when the new patch populates them. -/
def mergeDirs (old d : PatchDir) : PatchDir :=
  ⟨d.featureFiles ++ old.featureFiles.filter (fun e =>
      ! d.featureFiles.any (fun f => f.1 == e.1 && f.2.1 == e.2.1)),
    (d.bboxFile.orElse (fun _ => old.bboxFile)),
    (d.timestampFile.orElse (fun _ => old.timestampFile)),
    (d.metaInfoFile.orElse (fun _ => old.metaInfoFile))⟩

/-- Modelled from the spec (§4.2.5/§6.1, not in src/): save the patch
under `base/folder` honoring the overwrite policy.  NEVER fails fast on
an existing folder; OVERWRITE_PATCH replaces the entire folder;
OVERWRITE_FEATURES merges into it. -/
def SaveToDisk.run (tk : SaveToDisk) (p : EOPatch) (eopatch_folder : String)
    (fs : FileSystem) : FileSystem × Option EOError :=
  match fsLookup fs (tk.baseFolder ++ "/" ++ eopatch_folder), tk.overwrite_permission with
  | some _, .NEVER => (fs, some .OverwriteRefused)
  | some old, .OVERWRITE_FEATURES =>
      ((tk.baseFolder ++ "/" ++ eopatch_folder, mergeDirs old p.save) ::
        fs.filter (fun e => ! (e.1 == tk.baseFolder ++ "/" ++ eopatch_folder)), none)
  | _, _ =>
      ((tk.baseFolder ++ "/" ++ eopatch_folder, p.save) ::
        fs.filter (fun e => ! (e.1 == tk.baseFolder ++ "/" ++ eopatch_folder)), none)

/-- C7: when the target folder already exists, SaveToDisk with policy
NEVER fails with OverwriteRefused and writes nothing, while
OVERWRITE_PATCH succeeds and the folder afterwards holds exactly the
newly saved patch — its previous contents are gone. -/
theorem savetodisk_overwrite_policy (base folder : String) (p : EOPatch) (fs : FileSystem)
    (hex : (fsLookup fs (base ++ "/" ++ folder)).isSome = true) :
    (SaveToDisk.mk base .NEVER).run p folder fs = (fs, some .OverwriteRefused) ∧
    (∃ fs', (SaveToDisk.mk base .OVERWRITE_PATCH).run p folder fs = (fs', none) ∧
      fsLookup fs' (base ++ "/" ++ folder) = some p.save) := by
  obtain ⟨old, hold⟩ := Option.isSome_iff_exists.mp hex
  constructor
  · unfold SaveToDisk.run
    dsimp only
    rw [hold]
  · refine ⟨(base ++ "/" ++ folder, p.save) ::
        fs.filter (fun e => ! (e.1 == base ++ "/" ++ folder)), ?_, ?_⟩
    · unfold SaveToDisk.run
      dsimp only
      rw [hold]
    · unfold fsLookup
      rw [List.find?_cons_of_pos _ (by simp)]
      rfl

/-- Witness for C7: a filesystem whose `example/this_patch` folder holds
a previously saved empty patch refuses a NEVER save of the sample patch
and is fully replaced by an OVERWRITE_PATCH save. -/
theorem savetodisk_overwrite_policy_witness :
    (SaveToDisk.mk "example" .NEVER).run samplePatch "this_patch"
        [("example/this_patch", EOPatch.empty.save)] =
      ([("example/this_patch", EOPatch.empty.save)], some .OverwriteRefused) ∧
    (∃ fs', (SaveToDisk.mk "example" .OVERWRITE_PATCH).run samplePatch "this_patch"
        [("example/this_patch", EOPatch.empty.save)] = (fs', none) ∧
      fsLookup fs' ("example" ++ "/" ++ "this_patch") = some samplePatch.save) := by
  have h := savetodisk_overwrite_policy "example" "this_patch" samplePatch
    [("example/this_patch", EOPatch.empty.save)] (by decide)
  exact ⟨h.1, h.2⟩

/- Claim C8: vector-to-raster rasterization. -/

/-- The VectorToRaster task as instantiated in the notebook: a vector
source, a scalar burn value, a sibling-feature raster shape reference
and the target raster slot, with a background value defaulting to 0. -/
structure VectorToRaster where
  vector_input : List GeoRow
  values : ℚ
  raster_shape : FeatureType × String
  raster_feature : FeatureType × String
  no_data_value : ℚ

/-- Spatial dimensions (H, W) copied from a sibling feature's shape:
positions 1 and 2 of a timed (T, H, W, C) shape, positions 0 and 1 of a
timeless (H, W, C) shape. -/
def spatialDims (ft : FeatureType) (shape : List Nat) : Option (Nat × Nat) :=
  if ft.isTimed then
    match shape with
    | [_, h, w, _] => some (h, w)
    | _ => none
  else
    match shape with
    | [h, w, _] => some (h, w)
    | _ => none

/-- Burn the rows into one pixel: start from the background value and
let every row covering the pixel (in the given CRS) overwrite it with
the burn value — later rows overwrite earlier rows. -/
def burnFold (c : CRS) (rows : List GeoRow) (v bg : ℚ) (i j : Nat) : ℚ :=
  rows.foldl (fun acc r => if (r.geom.pixelsIn c).contains (i, j) then v else acc) bg

/-- The rasterized (H, W) grid, row-major. -/
def rasterizeGrid (c : CRS) (rows : List GeoRow) (v bg : ℚ) (H Wd : Nat) : List ℚ :=
  (List.range (H * Wd)).map (fun idx => burnFold c rows v bg (idx / Wd) (idx % Wd))

/-- Modelled from the spec (§4.2.4, not in src/): execute VectorToRaster
on a patch — reproject the vector source to the BBOX CRS, read the
sibling feature's spatial dims, burn the geometries over a background
grid and write the result to the target slot. -/
def VectorToRaster.run (tk : VectorToRaster) (p : EOPatch) : EOPatch × Option EOError :=
  match p.bbox with
  | none => (p, some .MissingMetadata)
  | some bb =>
      match p.getFeature tk.raster_shape.1 tk.raster_shape.2 with
      | none => (p, some .MissingFeature)
      | some (.table _) => (p, some .ShapeMismatch)
      | some (.array a) =>
          match spatialDims tk.raster_shape.1 a.shape with
          | none => (p, some .ShapeMismatch)
          | some (h, w) =>
              match p.setFeature tk.raster_feature.1 tk.raster_feature.2
                  (.array ⟨[h, w, 1], .uint8,
                    rasterizeGrid bb.crs tk.vector_input tk.values tk.no_data_value h w⟩) with
              | .ok p' => (p', none)
              | .error e => (p, some e)

theorem pair_index_lt (i j H W : Nat) (hi : i < H) (hj : j < W) : i * W + j < H * W := by
  calc i * W + j < i * W + W := by omega
    _ = (i + 1) * W := by ring
    _ ≤ H * W := Nat.mul_le_mul_right W (by omega)

theorem burnFold_cases (c : CRS) (rows : List GeoRow) (v bg : ℚ) (i j : Nat) :
    burnFold c rows v bg i j = v ∨ burnFold c rows v bg i j = bg := by
  induction rows generalizing bg with
  | nil => exact .inr rfl
  | cons r rows ih =>
      rw [burnFold, List.foldl_cons]
      by_cases hc : (r.geom.pixelsIn c).contains (i, j)
      · rw [if_pos hc]
        rcases ih v with h | h <;> exact .inl h
      · rw [if_neg hc]
        exact ih bg

theorem burnFold_ne_bg (c : CRS) (rows : List GeoRow) (v bg : ℚ) (i j : Nat)
    (h : burnFold c rows v bg i j ≠ bg) :
    ∃ r ∈ rows, (r.geom.pixelsIn c).contains (i, j) = true := by
  induction rows generalizing bg with
  | nil => exact absurd rfl h
  | cons r rows ih =>
      by_cases hc : (r.geom.pixelsIn c).contains (i, j)
      · exact ⟨r, by simp, hc⟩
      · rw [burnFold, List.foldl_cons, if_neg hc] at h
        obtain ⟨r', hr', hc'⟩ := ih bg h
        exact ⟨r', by simp [hr'], hc'⟩

/-- C8: on a Patch with a BBOX and `DATA[TRUE-COLOR-S2-L1C]` of shape
(T, H, W, 3), the notebook's VectorToRaster (burn value 1, raster shape
referencing that DATA feature, target `MASK_TIMELESS[BUILDING-DATA]`)
succeeds and writes an (H, W, 1) array — spatial dims copied from the
sibling feature — of integer dtype with values only in 0 or 1, whose
1-pixels lie inside the geometries reprojected to the BBOX CRS. -/
theorem vectortoraster_correct (rows : List GeoRow) (p : EOPatch) (bb : BBox)
    (T H W : Nat) (a : NDArray)
    (hbb : p.bbox = some bb)
    (hin : p.getFeature .DATA "TRUE-COLOR-S2-L1C" = some (.array a))
    (hsh : a.shape = [T, H, W, 3]) :
    ∃ p' out,
      (VectorToRaster.mk rows 1 (.DATA, "TRUE-COLOR-S2-L1C")
        (.MASK_TIMELESS, "BUILDING-DATA") 0).run p = (p', none) ∧
      p'.getFeature .MASK_TIMELESS "BUILDING-DATA" = some (.array out) ∧
      out.shape = [H, W, 1] ∧
      out.dtype.isInteger = true ∧
      (∀ x ∈ out.data, x = 0 ∨ x = 1) ∧
      (∀ i j, i < H → j < W → out.data.getD (i * W + j) 0 = 1 →
        ∃ r ∈ rows, (r.geom.pixelsIn bb.crs).contains (i, j) = true) := by
  have hsd : spatialDims .DATA a.shape = some (H, W) := by
    rw [hsh]
    rfl
  have hval : validateFeature p .MASK_TIMELESS
      (.array ⟨[H, W, 1], .uint8, rasterizeGrid bb.crs rows 1 0 H W⟩) = none := by
    simp [validateFeature, FeatureType.arity, FeatureType.dtypeOk, FeatureType.isTimed,
      Dtype.isInteger]
  have hset : p.setFeature .MASK_TIMELESS "BUILDING-DATA"
      (.array ⟨[H, W, 1], .uint8, rasterizeGrid bb.crs rows 1 0 H W⟩) =
      .ok { p with features := (.MASK_TIMELESS, "BUILDING-DATA",
        .array ⟨[H, W, 1], .uint8, rasterizeGrid bb.crs rows 1 0 H W⟩) ::
        p.features.filter (fun e => ! featureKeyIs .MASK_TIMELESS "BUILDING-DATA" e) } := by
    unfold EOPatch.setFeature
    rw [hval]
  refine ⟨_, _, ?_, getFeature_set_same _ _ _ _ _ hset, rfl, rfl, ?_, ?_⟩
  · unfold VectorToRaster.run
    dsimp only
    rw [hbb]
    dsimp only
    rw [hin]
    dsimp only
    rw [hsd]
    dsimp only
    rw [hset]
    dsimp only
    rw [hbb]
  · intro x hx
    rw [rasterizeGrid] at hx
    obtain ⟨idx, -, hxe⟩ := List.mem_map.mp hx
    rcases burnFold_cases bb.crs rows 1 0 (idx / W) (idx % W) with h | h <;>
      rw [← hxe, h] <;> simp
  · intro i j hi hj hone
    have hb : i * W + j < H * W := pair_index_lt i j H W hi hj
    have hw : 0 < W := by omega
    have hdiv : (i * W + j) / W = i := by
      rw [Nat.mul_comm i W, Nat.mul_add_div hw, Nat.div_eq_of_lt hj]
      omega
    have hmod : (i * W + j) % W = j := by
      rw [Nat.mul_comm i W, Nat.mul_add_mod, Nat.mod_eq_of_lt hj]
    rw [rasterizeGrid, getD_range_map _ _ _ _ hb, hdiv, hmod] at hone
    apply burnFold_ne_bg bb.crs rows 1 0 i j
    rw [hone]
    norm_num

/-- Witness for C8: a one-geometry vector source covering pixel (0, 0)
in WGS84, rasterized over a patch holding a (1, 1, 1, 3) true-color
stack and a WGS84 BBOX. -/
theorem vectortoraster_correct_witness :
    ∃ p' out,
      (VectorToRaster.mk [⟨none, ⟨[(CRS.WGS84, 0, 0)]⟩⟩] 1 (.DATA, "TRUE-COLOR-S2-L1C")
        (.MASK_TIMELESS, "BUILDING-DATA") 0).run
        ⟨[(.DATA, "TRUE-COLOR-S2-L1C", .array ⟨[1, 1, 1, 3], .uint16, []⟩)],
          some ⟨26, 44, 27, 45, .WGS84⟩, none, none⟩ = (p', none) ∧
      p'.getFeature .MASK_TIMELESS "BUILDING-DATA" = some (.array out) ∧
      out.shape = [1, 1, 1] ∧
      out.dtype.isInteger = true ∧
      (∀ x ∈ out.data, x = 0 ∨ x = 1) ∧
      (∀ i j, i < 1 → j < 1 → out.data.getD (i * 1 + j) 0 = 1 →
        ∃ r ∈ [(⟨none, ⟨[(CRS.WGS84, 0, 0)]⟩⟩ : GeoRow)],
          (r.geom.pixelsIn (⟨26, 44, 27, 45, .WGS84⟩ : BBox).crs).contains (i, j) = true) :=
  vectortoraster_correct [⟨none, ⟨[(CRS.WGS84, 0, 0)]⟩⟩]
    ⟨[(.DATA, "TRUE-COLOR-S2-L1C", .array ⟨[1, 1, 1, 3], .uint16, []⟩)],
      some ⟨26, 44, 27, 45, .WGS84⟩, none, none⟩
    ⟨26, 44, 27, 45, .WGS84⟩ 1 1 1 ⟨[1, 1, 1, 3], .uint16, []⟩ rfl (by decide) rfl
